import Mathlib

/-!
# Verification of the Workshop3 data-preparation pipeline

Shallow embedding of `utils/years_functions.py` and
`src/database/database_functions.py`.

A pandas `DataFrame` is modelled as an ordered list of column names
together with a list of rows, each row a list of cell values aligned
positionally with the column list (`WF` states the alignment).  A cell
value is a string, an integer, or the missing value `NaN` (`Value.na`).
A Python `dict` keyed by year is modelled as an association list in
insertion order (Python dicts iterate in insertion order); keys of a
real Python dict are pairwise distinct, which theorems take as a
hypothesis where it matters.

Python's builtin `int(...)` applied to the four trailing characters of a
filename stem is modelled by `String.toInt?` (optional sign followed by
decimal digits); exceptions raised by the Python code are modelled by
`Option`/`none` results.  The iteration order of a Python `set` is
unspecified, so `concatenate_common_columns` fixes one concrete order
for the common columns (first dataset's column order, deduplicated);
the claims about it only concern the column *set*.

In-place mutation (`add_year_column`, `map_country_to_continent`, and
the non-mutation of `normalize_column_names`) is modelled with an
explicit heap: a store of dataframes addressed by natural-number
references, a dict then being an association list from year to
reference.
-/

/-- A cell value of a dataframe: a string, an integer, or missing (NaN). -/
inductive Value where
  | str : String → Value
  | int : Int → Value
  | na : Value
deriving DecidableEq, Repr

/-- A pandas DataFrame: ordered column names and rows of cell values. -/
structure DF where
  cols : List String
  rows : List (List Value)
deriving DecidableEq, Repr

/-- Well-formedness: every row has exactly one cell per column. -/
def WF (df : DF) : Prop :=
  ∀ r ∈ df.rows, r.length = df.cols.length

instance (df : DF) : Decidable (WF df) := by
  unfold WF; infer_instance

/-- Value of the (first) column named `name` in a row, walking the column
list and the row in lockstep; missing columns read as `Value.na`. -/
def getVal : List String → List Value → String → Value
  | c :: cs, v :: vs, name => if c = name then v else getVal cs vs name
  | _, _, _ => Value.na

/-- Overwrite every cell of a row lying under a column named `name` with `v`
(pandas column assignment writes through all labels equal to `name`). -/
def set_row (cols : List String) (r : List Value) (name : String) (v : Value) : List Value :=
  (cols.zip r).map (fun p => if p.1 = name then v else p.2)

/-- `df[name] = v` with a scalar `v`: broadcast `v` over the column,
replacing it if the label exists and appending a new column otherwise. -/
def set_column (df : DF) (name : String) (v : Value) : DF :=
  if name ∈ df.cols then
    { cols := df.cols, rows := df.rows.map (fun r => set_row df.cols r name v) }
  else
    { cols := df.cols ++ [name], rows := df.rows.map (fun r => r ++ [v]) }

/-- `df[name] = vals` with one value per row: replace the column if the
label exists, append it otherwise. -/
def set_column_list (df : DF) (name : String) (vals : List Value) : DF :=
  if name ∈ df.cols then
    { cols := df.cols, rows := (df.rows.zip vals).map (fun p => set_row df.cols p.1 name p.2) }
  else
    { cols := df.cols ++ [name], rows := (df.rows.zip vals).map (fun p => p.1 ++ [p.2]) }

/-- `df[names]`: restrict a dataframe to the listed columns, in that order. -/
def select (df : DF) (names : List String) : DF :=
  { cols := names, rows := df.rows.map (fun r => names.map (fun n => getVal df.cols r n)) }

/-- A Python dict keyed by year, in insertion order. -/
abbrev DFDict := List (Int × DF)

/-- Python dict assignment `d[k] = v`: overwrite in place if the key is
present, append at the end otherwise. -/
def dictInsert {β : Type} (k : Int) (v : β) : List (Int × β) → List (Int × β)
  | [] => [(k, v)]
  | (k', v') :: rest => if k' = k then (k, v) :: rest else (k', v') :: dictInsert k v rest

/-- `str.endswith(suffix)`, on the character lists of the strings. -/
def endsWithStr (s suffix : String) : Bool :=
  suffix.data.isSuffixOf s.data

/-- Python `int(...)` on a digit run: all characters must be decimal digits
and at least one must be present. -/
def digitsToNat (cs : List Char) : Option Nat :=
  if cs ≠ [] ∧ cs.all Char.isDigit then
    some (cs.foldl (fun n c => n * 10 + (c.toNat - 48)) 0)
  else none

/-- Python `int(...)` on a character list: an optional sign followed by
decimal digits (surrounding whitespace and exotic digit forms are out of
scope for the filenames modelled here). -/
def charsToInt (cs : List Char) : Option Int :=
  match cs with
  | '-' :: rest => (digitsToNat rest).map (fun n => -(n : Int))
  | '+' :: rest => (digitsToNat rest).map (fun n => (n : Int))
  | _ => (digitsToNat cs).map (fun n => (n : Int))

/-- Year parsed from a filename as in `int(filename.split('.')[0][-4:])`:
the last four characters of the part before the first dot, read as an
integer; `none` models the `ValueError` raised by `int`. -/
def parseYear (filename : String) : Option Int :=
  charsToInt (((filename.data.takeWhile (fun c => c ≠ '.')).reverse.take 4).reverse)

/-- `load_datasets` from `years_functions.py`.  The directory is modelled by
its listing (a list of filenames) and an environment `env` giving the parsed
contents of each file; a `ValueError` from `int(...)` aborts the whole call. -/
def load_datasets (env : String → DF) (listing : List String) : Option DFDict :=
  listing.foldl
    (fun acc filename =>
      match acc with
      | none => none
      | some ds =>
        if endsWithStr filename ".csv" then
          match parseYear filename with
          | none => none
          | some y => some (dictInsert y (env filename) ds)
        else some ds)
    (some [])

/-- The `column_mapping` dict of `normalize_column_names`, verbatim. -/
def column_mapping : List (String × String) :=
  [("Country", "Country"),
   ("Country or region", "Country"),
   ("Dystopia Residual", "Dystopia_Residual"),
   ("Dystopia.Residual", "Dystopia_Residual"),
   ("Economy (GDP per Capita)", "Economy"),
   ("Economy..GDP.per.Capita.", "Economy"),
   ("Family", "Social_Support"),
   ("Freedom", "Freedom"),
   ("Freedom to make life choices", "Freedom"),
   ("GDP per capita", "Economy"),
   ("Generosity", "Generosity"),
   ("Happiness Rank", "Happiness_Rank"),
   ("Happiness Score", "Happiness_Score"),
   ("Happiness.Rank", "Happiness_Rank"),
   ("Happiness.Score", "Happiness_Score"),
   ("Health (Life Expectancy)", "Health"),
   ("Health..Life.Expectancy.", "Health"),
   ("Healthy life expectancy", "Health"),
   ("Lower Confidence Interval", "Lower_Confidence_Interval"),
   ("Overall rank", "Happiness_Rank"),
   ("Perceptions of corruption", "Trust"),
   ("Trust (Government Corruption)", "Trust"),
   ("Trust..Government.Corruption.", "Trust"),
   ("Region", "Region"),
   ("Score", "Happiness_Score"),
   ("Social support", "Social_Support"),
   ("Standard Error", "Standard_Error"),
   ("Upper Confidence Interval", "Upper_Confidence_Interval"),
   ("Whisker.high", "Whisker_High"),
   ("Whisker.low", "Whisker_Low")]

/-- `pandas.DataFrame.rename(columns=...)` on one label: mapped labels are
replaced by their image, others pass through unchanged. -/
def applySyn (c : String) : String :=
  (column_mapping.lookup c).getD c

/-- `df.rename(columns=column_mapping)`: a fresh dataframe with renamed
column labels and the same rows. -/
def rename_df (df : DF) : DF :=
  { cols := df.cols.map applySyn, rows := df.rows }

/-- `normalize_column_names`: build a new dict with each dataframe renamed.
The input dict's keys are pairwise distinct (it is a Python dict), so the
insertion loop is a map over the entries in iteration order. -/
def normalize_column_names (d : DFDict) : DFDict :=
  d.map (fun p => (p.1, rename_df p.2))

/-- `add_year_column`: `df['Year'] = year` for every entry of the dict. -/
def add_year_column (d : DFDict) : DFDict :=
  d.map (fun p => (p.1, set_column p.2 "Year" (Value.int p.1)))

/-- `concatenate_common_columns`: intersect the column sets of all
dataframes, restrict each to the common columns, and concatenate rows with
a fresh index.  On an empty dict `set.intersection(*[])` raises a
`TypeError`, modelled by `none`.  Python's set iteration order is
unspecified; the model lists the common columns in the first dataframe's
column order, deduplicated. -/
def commonCols (df0 : DF) (rest : DFDict) : List String :=
  (df0.cols.filter (fun c => rest.all (fun p => decide (c ∈ p.2.cols)))).dedup

def concatenate_common_columns (d : DFDict) : Option DF :=
  match d with
  | [] => none
  | (y0, df0) :: rest =>
    some { cols := commonCols df0 rest,
           rows := (((y0, df0) :: rest).map
             (fun p => (select p.2 (commonCols df0 rest)).rows)).flatten }
/-- The `country_to_continent` dict of `map_country_to_continent`, verbatim. -/
def country_to_continent : List (String × String) :=
  [("Switzerland", "Europe"),
   ("Iceland", "Europe"),
   ("Denmark", "Europe"),
   ("Norway", "Europe"),
   ("Canada", "North America"),
   ("Finland", "Europe"),
   ("Netherlands", "Europe"),
   ("Sweden", "Europe"),
   ("New Zealand", "Oceania"),
   ("Australia", "Oceania"),
   ("Israel", "Asia"),
   ("Costa Rica", "North America"),
   ("Austria", "Europe"),
   ("Mexico", "North America"),
   ("United States", "North America"),
   ("Brazil", "South America"),
   ("Luxembourg", "Europe"),
   ("Ireland", "Europe"),
   ("Belgium", "Europe"),
   ("United Arab Emirates", "Asia"),
   ("United Kingdom", "Europe"),
   ("Oman", "Asia"),
   ("Venezuela", "South America"),
   ("Singapore", "Asia"),
   ("Panama", "North America"),
   ("Germany", "Europe"),
   ("Chile", "South America"),
   ("Qatar", "Asia"),
   ("France", "Europe"),
   ("Argentina", "South America"),
   ("Czech Republic", "Europe"),
   ("Uruguay", "South America"),
   ("Colombia", "South America"),
   ("Thailand", "Asia"),
   ("Saudi Arabia", "Asia"),
   ("Spain", "Europe"),
   ("Malta", "Europe"),
   ("Taiwan", "Asia"),
   ("Kuwait", "Asia"),
   ("Suriname", "South America"),
   ("Trinidad and Tobago", "North America"),
   ("El Salvador", "North America"),
   ("Guatemala", "North America"),
   ("Uzbekistan", "Asia"),
   ("Slovakia", "Europe"),
   ("Japan", "Asia"),
   ("South Korea", "Asia"),
   ("Ecuador", "South America"),
   ("Bahrain", "Asia"),
   ("Italy", "Europe"),
   ("Bolivia", "South America"),
   ("Moldova", "Europe"),
   ("Paraguay", "South America"),
   ("Kazakhstan", "Asia"),
   ("Slovenia", "Europe"),
   ("Lithuania", "Europe"),
   ("Nicaragua", "North America"),
   ("Peru", "South America"),
   ("Belarus", "Europe"),
   ("Poland", "Europe"),
   ("Malaysia", "Asia"),
   ("Croatia", "Europe"),
   ("Libya", "Africa"),
   ("Russia", "Europe"),
   ("Jamaica", "North America"),
   ("North Cyprus", "Europe"),
   ("Cyprus", "Europe"),
   ("Algeria", "Africa"),
   ("Kosovo", "Europe"),
   ("Turkmenistan", "Asia"),
   ("Mauritius", "Africa"),
   ("Hong Kong", "Asia"),
   ("Estonia", "Europe"),
   ("Indonesia", "Asia"),
   ("Vietnam", "Asia"),
   ("Turkey", "Asia"),
   ("Kyrgyzstan", "Asia"),
   ("Nigeria", "Africa"),
   ("Bhutan", "Asia"),
   ("Azerbaijan", "Asia"),
   ("Pakistan", "Asia"),
   ("Jordan", "Asia"),
   ("Montenegro", "Europe"),
   ("China", "Asia"),
   ("Zambia", "Africa"),
   ("Romania", "Europe"),
   ("Serbia", "Europe"),
   ("Portugal", "Europe"),
   ("Latvia", "Europe"),
   ("Philippines", "Asia"),
   ("Somaliland region", "Africa"),
   ("Morocco", "Africa"),
   ("Macedonia", "Europe"),
   ("Mozambique", "Africa"),
   ("Albania", "Europe"),
   ("Bosnia and Herzegovina", "Europe"),
   ("Lesotho", "Africa"),
   ("Dominican Republic", "North America"),
   ("Laos", "Asia"),
   ("Mongolia", "Asia"),
   ("Swaziland", "Africa"),
   ("Greece", "Europe"),
   ("Lebanon", "Asia"),
   ("Hungary", "Europe"),
   ("Honduras", "North America"),
   ("Tajikistan", "Asia"),
   ("Tunisia", "Africa"),
   ("Palestinian Territories", "Asia"),
   ("Bangladesh", "Asia"),
   ("Iran", "Asia"),
   ("Ukraine", "Europe"),
   ("Iraq", "Asia"),
   ("South Africa", "Africa"),
   ("Ghana", "Africa"),
   ("Zimbabwe", "Africa"),
   ("Liberia", "Africa"),
   ("India", "Asia"),
   ("Sudan", "Africa"),
   ("Haiti", "North America"),
   ("Congo (Kinshasa)", "Africa"),
   ("Nepal", "Asia"),
   ("Ethiopia", "Africa"),
   ("Sierra Leone", "Africa"),
   ("Mauritania", "Africa"),
   ("Kenya", "Africa"),
   ("Djibouti", "Africa"),
   ("Armenia", "Asia"),
   ("Botswana", "Africa"),
   ("Myanmar", "Asia"),
   ("Georgia", "Asia"),
   ("Malawi", "Africa"),
   ("Sri Lanka", "Asia"),
   ("Cameroon", "Africa"),
   ("Bulgaria", "Europe"),
   ("Egypt", "Africa"),
   ("Yemen", "Asia"),
   ("Angola", "Africa"),
   ("Mali", "Africa"),
   ("Congo (Brazzaville)", "Africa"),
   ("Comoros", "Africa"),
   ("Uganda", "Africa"),
   ("Senegal", "Africa"),
   ("Gabon", "Africa"),
   ("Niger", "Africa"),
   ("Cambodia", "Asia"),
   ("Tanzania", "Africa"),
   ("Madagascar", "Africa"),
   ("Central African Republic", "Africa"),
   ("Chad", "Africa"),
   ("Guinea", "Africa"),
   ("Ivory Coast", "Africa"),
   ("Burkina Faso", "Africa"),
   ("Afghanistan", "Asia"),
   ("Rwanda", "Africa"),
   ("Benin", "Africa"),
   ("Syria", "Asia"),
   ("Burundi", "Africa"),
   ("Togo", "Africa"),
   ("Puerto Rico", "North America"),
   ("Belize", "North America"),
   ("Somalia", "Africa"),
   ("Somaliland Region", "Africa"),
   ("Namibia", "Africa"),
   ("South Sudan", "Africa"),
   ("Taiwan Province of China", "Asia"),
   ("Hong Kong S.A.R., China", "Asia"),
   ("Trinidad & Tobago", "North America"),
   ("Northern Cyprus", "Europe"),
   ("North Macedonia", "Europe"),
   ("Gambia", "Africa")]

/-- `series.map(dict)` elementwise: a string present in the dict maps to its
continent, anything else (absent country, non-string, NaN) maps to NaN. -/
def continentOf (v : Value) : Value :=
  match v with
  | Value.str s =>
    match country_to_continent.lookup s with
    | some c => Value.str c
    | none => Value.na
  | _ => Value.na

/-- `map_country_to_continent`: `df['Continent'] = df['Country'].map(...)`.
Reading `df['Country']` raises a `KeyError` when the column is absent,
modelled by `none`. -/
def map_country_to_continent (df : DF) : Option DF :=
  if "Country" ∈ df.cols then
    some (set_column_list df "Continent"
      (df.rows.map (fun r => continentOf (getVal df.cols r "Country"))))
  else none

/-- A store of dataframe objects addressed by natural-number references,
modelling Python's heap for the claims about mutation and aliasing. -/
structure Heap where
  dfs : List DF
deriving DecidableEq, Repr

/-- Dereference: reading an unallocated reference yields the empty frame. -/
def Heap.read (h : Heap) (r : Nat) : DF :=
  h.dfs.getD r { cols := [], rows := [] }

/-- A dict of dataframe references keyed by year, in insertion order. -/
abbrev RefDict := List (Int × Nat)

/-- Stateful `normalize_column_names`: the loop body `df.rename(...)` builds
a fresh dataframe (pandas rename copies), allocated here at the end of the
store, and inserts it into the fresh dict `normalized_datasets`. -/
def normalize_column_names_st (h : Heap) (d : RefDict) : Heap × RefDict :=
  d.foldl
    (fun acc p =>
      (⟨acc.1.dfs ++ [rename_df (acc.1.read p.2)]⟩,
       dictInsert p.1 acc.1.dfs.length acc.2))
    (h, [])

/-- Stateful `map_country_to_continent`: the column assignment mutates the
dataframe object in place and the function returns the same reference. -/
def map_country_to_continent_st (h : Heap) (r : Nat) : Option (Heap × Nat) :=
  match map_country_to_continent (h.read r) with
  | none => none
  | some df => some (⟨h.dfs.set r df⟩, r)

/-- Log lines emitted through `logging`. -/
inductive LogEntry where
  | info : String → LogEntry
  | error : String → LogEntry
deriving DecidableEq, Repr

/-- An engine handle, opaque to the model. -/
abbrev Engine := Nat

/-- The behaviour of the external database world during one `get_engine`
call: what each SQLAlchemy operation returns, or the `SQLAlchemyError`
it raises. -/
structure DBWorld where
  database_exists : Except String Bool
  create_database : Except String Unit
  create_engine : Except String Engine

/-- `get_engine` from `database_functions.py`: create the database when it
does not exist, then build the engine; any `SQLAlchemyError` raised on the
way is caught and logged, and the function falls through returning `None`.
Returns the optional handle together with the log lines in order. -/
def get_engine (w : DBWorld) : Option Engine × List LogEntry :=
  match w.database_exists with
  | Except.error e => (none, [LogEntry.error e])
  | Except.ok exists_db =>
    let created :=
      if exists_db then Except.ok []
      else
        match w.create_database with
        | Except.error e => Except.error e
        | Except.ok _ => Except.ok [LogEntry.info "Database  created successfully!"]
    match created with
    | Except.error e => (none, [LogEntry.error e])
    | Except.ok logs1 =>
      match w.create_engine with
      | Except.error e => (none, logs1 ++ [LogEntry.error e])
      | Except.ok eng =>
        (some eng, logs1 ++ [LogEntry.info "Conected successfully to database!"])

/-- Whether an external call raised (`Except.error`). -/
def isErr {α : Type} : Except String α → Bool
  | Except.error _ => true
  | Except.ok _ => false

/-- An error was raised by one of the SQLAlchemy calls actually executed
during `get_engine` on world `w` (calls after a raise never run, and
`create_database` only runs when the database does not exist). -/
def raisesDuringB (w : DBWorld) : Bool :=
  match w.database_exists with
  | Except.error _ => true
  | Except.ok exists_db =>
    (!exists_db && isErr w.create_database) ||
    ((exists_db || !isErr w.create_database) && isErr w.create_engine)

/-- Propositional form of `raisesDuringB`. -/
def raisesDuring (w : DBWorld) : Prop :=
  raisesDuringB w = true

/-! ## Concrete inputs used by witnesses and counterexamples -/

/-- A file environment mapping every filename to an empty dataframe. -/
def envEmpty : String → DF := fun _ => { cols := [], rows := [] }

/-- Two recognized files whose parsed years collide. -/
def exListingDup : List String := ["a2015.csv", "b2015.csv"]

/-- Two recognized files with distinct parsed years, plus an ignored file. -/
def exListingOk : List String := ["happiness_2015.csv", "happiness_2016.csv", "notes.txt"]

/-- A small dataset with a `Country` column. -/
def exDF : DF :=
  { cols := ["Country", "Happiness Score"],
    rows := [[Value.str "Switzerland", Value.int 7], [Value.str "Atlantis", Value.int 5]] }

/-- A second small dataset sharing only the `Country` column with `exDF`. -/
def exDF2 : DF :=
  { cols := ["Country", "Economy"],
    rows := [[Value.str "Norway", Value.int 3]] }

/-- A two-year dict of the small datasets. -/
def exDict : DFDict := [(2015, exDF), (2016, exDF2)]

/-- A dataset that already carries a `Continent` column. -/
def exDFCont : DF :=
  { cols := ["Country", "Continent"],
    rows := [[Value.str "Switzerland", Value.str "X"]] }

/-- A heap holding `exDFCont` at reference 0. -/
def exHeapCont : Heap := { dfs := [exDFCont] }

/-- A heap holding `exDF` at reference 0. -/
def exHeap : Heap := { dfs := [exDF] }

/-- A world where checking for the database raises an `SQLAlchemyError`. -/
def exWorldErr : DBWorld :=
  { database_exists := Except.error "connection refused",
    create_database := Except.ok (),
    create_engine := Except.ok 1 }

/-! ## General lemmas about the dataframe model -/

/-- A successful association-list lookup returns an entry of the list. -/
theorem lookup_mem {β : Type} {l : List (String × β)} {k : String} {b : β}
    (h : l.lookup k = some b) : (k, b) ∈ l := by
  induction l with
  | nil => simp [List.lookup] at h
  | cons p rest ih =>
    rcases p with ⟨k', v'⟩
    by_cases hk : k = k'
    · subst hk
      rw [List.lookup] at h
      simp only [beq_self_eq_true] at h
      have : v' = b := Option.some.inj h
      subst this
      exact List.mem_cons_self _ _
    · rw [List.lookup] at h
      have hb : (k == k') = false := beq_eq_false_iff_ne.mpr hk
      simp only [hb] at h
      exact List.mem_cons_of_mem _ (ih h)

/-- Reading a column across an append: found on the left when present there. -/
theorem getVal_append (cols : List String) :
    ∀ (r : List Value), r.length = cols.length → ∀ (cols2 : List String) (r2 : List Value)
      (c : String),
      getVal (cols ++ cols2) (r ++ r2) c =
        if c ∈ cols then getVal cols r c else getVal cols2 r2 c := by
  induction cols with
  | nil =>
    intro r h cols2 r2 c
    have : r = [] := by simpa using h
    subst this
    simp [getVal]
  | cons c' cs ih =>
    intro r h cols2 r2 c
    cases r with
    | nil => simp at h
    | cons v vs =>
      have hlen : vs.length = cs.length := by simpa using h
      by_cases hc : c' = c
      · subst hc
        simp [getVal, List.cons_append]
      · have hne : ¬ c = c' := fun hh => hc hh.symm
        simp [List.cons_append, getVal, hc, hne, ih vs hlen cols2 r2 c, List.mem_cons]

/-- Writing a column then reading it back yields the written value. -/
theorem getVal_set_row (cols : List String) :
    ∀ (r : List Value), r.length = cols.length → ∀ (name : String) (v : Value),
      name ∈ cols → getVal cols (set_row cols r name v) name = v := by
  induction cols with
  | nil => intro r _ name v hmem; simp at hmem
  | cons c' cs ih =>
    intro r h name v hmem
    cases r with
    | nil => simp at h
    | cons w vs =>
      have hlen : vs.length = cs.length := by simpa using h
      by_cases hc : c' = name
      · simp [set_row, getVal, hc]
      · have hmem' : name ∈ cs := by
          rcases List.mem_cons.mp hmem with h1 | h1
          · exact absurd h1.symm hc
          · exact h1
        simp only [set_row, List.zip_cons_cons, List.map_cons, getVal, if_neg hc]
        exact ih vs hlen name v hmem'

/-- Writing a column leaves the other columns' values unchanged. -/
theorem getVal_set_row_ne (cols : List String) :
    ∀ (r : List Value), r.length = cols.length → ∀ (name : String) (v : Value) (c : String),
      c ≠ name → getVal cols (set_row cols r name v) c = getVal cols r c := by
  induction cols with
  | nil =>
    intro r h name v c _
    have : r = [] := by simpa using h
    subst this
    simp [set_row]
  | cons c' cs ih =>
    intro r h name v c hc
    cases r with
    | nil => simp at h
    | cons w vs =>
      have hlen : vs.length = cs.length := by simpa using h
      by_cases hcc : c' = c
      · subst hcc
        have hcn : ¬ c' = name := fun hh => hc hh
        simp [set_row, getVal, hcn]
      · simp only [set_row, List.zip_cons_cons, List.map_cons, getVal, if_neg hcc]
        by_cases hcn : c' = name <;>
          simpa [hcn] using ih vs hlen name v c hc

/-- Unfolding `set_row` over a cons cell. -/
theorem set_row_cons (c' : String) (cs : List String) (x : Value) (xs : List Value)
    (name : String) (v : Value) :
    set_row (c' :: cs) (x :: xs) name v
      = (if c' = name then v else x) :: set_row cs xs name v := rfl

/-- Re-writing the same column with the same value changes nothing. -/
theorem set_row_idem (cols : List String) :
    ∀ (r : List Value) (name : String) (v : Value),
      set_row cols (set_row cols r name v) name v = set_row cols r name v := by
  induction cols with
  | nil => intro r name v; simp [set_row]
  | cons c' cs ih =>
    intro r name v
    cases r with
    | nil => simp [set_row]
    | cons w vs =>
      rw [set_row_cons, set_row_cons, ih vs name v]
      by_cases hc : c' = name <;> simp [hc]

/-- Writing a column that is not present leaves the row as it was. -/
theorem set_row_not_mem (cols : List String) :
    ∀ (r : List Value), r.length = cols.length → ∀ (name : String) (v : Value),
      name ∉ cols → set_row cols r name v = r := by
  induction cols with
  | nil =>
    intro r h name v _
    have : r = [] := by simpa using h
    subst this
    simp [set_row]
  | cons c' cs ih =>
    intro r h name v hmem
    cases r with
    | nil => simp at h
    | cons w vs =>
      have hlen : vs.length = cs.length := by simpa using h
      have h1 : ¬ c' = name := fun hh => hmem (hh ▸ List.mem_cons_self _ _)
      have h2 : name ∉ cs := fun hh => hmem (List.mem_cons_of_mem _ hh)
      show (if c' = name then v else w) :: set_row cs vs name v = w :: vs
      rw [if_neg h1, ih vs hlen name v h2]

/-- The length of a written row. -/
theorem set_row_length (cols : List String) (r : List Value) (name : String) (v : Value) :
    (set_row cols r name v).length = min cols.length r.length := by
  simp [set_row]

/-- `set_column` preserves well-formedness. -/
theorem WF_set_column {df : DF} (hwf : WF df) (name : String) (v : Value) :
    WF (set_column df name v) := by
  intro r hr
  unfold set_column at hr ⊢
  by_cases hmem : name ∈ df.cols
  · simp only [hmem, if_true] at hr ⊢
    obtain ⟨r0, hr0, rfl⟩ := List.mem_map.mp hr
    simp [set_row_length, hwf r0 hr0]
  · simp only [hmem, if_false] at hr ⊢
    obtain ⟨r0, hr0, rfl⟩ := List.mem_map.mp hr
    simp [hwf r0 hr0]

/-- After `df[name] = v`, every row reads back `v` under `name`. -/
theorem set_column_getVal {df : DF} (hwf : WF df) (name : String) (v : Value) :
    ∀ r ∈ (set_column df name v).rows, getVal (set_column df name v).cols r name = v := by
  intro r hr
  unfold set_column at hr ⊢
  by_cases hmem : name ∈ df.cols
  · simp only [hmem, if_true] at hr ⊢
    obtain ⟨r0, hr0, rfl⟩ := List.mem_map.mp hr
    exact getVal_set_row df.cols r0 (hwf r0 hr0) name v hmem
  · simp only [hmem, if_false] at hr ⊢
    obtain ⟨r0, hr0, rfl⟩ := List.mem_map.mp hr
    rw [getVal_append df.cols r0 (hwf r0 hr0) [name] [v] name, if_neg hmem]
    simp [getVal]

/-- `df[name] = v` twice with the same value is the same as once. -/
theorem set_column_idem {df : DF} (hwf : WF df) (name : String) (v : Value) :
    set_column (set_column df name v) name v = set_column df name v := by
  by_cases hmem : name ∈ df.cols
  · simp only [set_column, hmem, if_true]
    congr 1
    rw [List.map_map]
    apply List.map_congr_left
    intro r _
    exact set_row_idem df.cols r name v
  · have hmem2 : name ∈ df.cols ++ [name] := by simp
    simp only [set_column, hmem, if_false, hmem2, if_true]
    congr 1
    rw [List.map_map]
    apply List.map_congr_left
    intro r hr
    show set_row (df.cols ++ [name]) (r ++ [v]) name v = r ++ [v]
    rw [set_row, List.zip_append (by rw [hwf r hr]), List.map_append]
    rw [show (df.cols.zip r).map (fun p => if p.1 = name then v else p.2)
          = set_row df.cols r name v from rfl,
      set_row_not_mem df.cols r (hwf r hr) name v hmem]
    simp

/-! ## Lemmas about the synonym table -/

/-- Every canonical value of the synonym table is mapped to itself when it
is also a key, and to itself by `applySyn` in general. -/
theorem column_mapping_values_fixed :
    ∀ p ∈ column_mapping, applySyn p.2 = p.2 := by decide

/-- The canonical name of a synonym is a fixed point of `applySyn`. -/
theorem applySyn_fixed_of_lookup {c v : String}
    (h : column_mapping.lookup c = some v) : applySyn v = v :=
  column_mapping_values_fixed (c, v) (lookup_mem h)

/-- `applySyn` is idempotent. -/
theorem applySyn_applySyn (c : String) : applySyn (applySyn c) = applySyn c := by
  cases h : column_mapping.lookup c with
  | none =>
    have hc : applySyn c = c := by simp [applySyn, h]
    rw [hc]
    exact hc
  | some v =>
    have hc : applySyn c = v := by simp [applySyn, h]
    rw [hc]
    exact applySyn_fixed_of_lookup h

/-- `rename_df` is idempotent. -/
theorem rename_df_idem (df : DF) : rename_df (rename_df df) = rename_df df := by
  show ({ cols := (df.cols.map applySyn).map applySyn, rows := df.rows } : DF)
      = { cols := df.cols.map applySyn, rows := df.rows }
  rw [List.map_map]
  congr 1
  apply List.map_congr_left
  intro c _
  exact applySyn_applySyn c

/-! ## The claims -/

/-- **C6**: `concatenate_common_columns` applied to an empty mapping fails
(the Python call `set.intersection(*[])` raises a `TypeError`, modelled by
`none`) rather than returning a table. -/
theorem concatenate_common_columns_empty : concatenate_common_columns [] = none := rfl

/-- **C1**: for every non-empty mapping year→dataset,
`concatenate_common_columns` returns a table whose column set equals the
intersection of the input column sets, whose rows are the restrictions of
the input datasets' rows concatenated in mapping-iteration order with row
order preserved within each year, and whose row count is the sum of the
input row counts. -/
theorem concatenate_common_columns_spec (d : DFDict) (hne : d ≠ []) :
    ∃ out, concatenate_common_columns d = some out ∧
      (∀ c, c ∈ out.cols ↔ ∀ p ∈ d, c ∈ p.2.cols) ∧
      out.rows = (d.map (fun p => (select p.2 out.cols).rows)).flatten ∧
      out.rows.length = (d.map (fun p => p.2.rows.length)).sum := by
  match d with
  | [] => exact absurd rfl hne
  | (y0, df0) :: rest =>
    refine ⟨_, rfl, ?_, rfl, ?_⟩
    · intro c
      simp only [commonCols, List.mem_dedup, List.mem_filter, List.all_eq_true,
        decide_eq_true_eq, List.mem_cons]
      constructor
      · rintro ⟨h0, hrest⟩ p hp
        rcases hp with rfl | hp
        · exact h0
        · exact hrest p hp
      · intro hall
        exact ⟨hall (y0, df0) (Or.inl rfl), fun p hp => hall p (Or.inr hp)⟩
    · simp only [List.length_flatten, List.map_map]
      apply congrArg List.sum
      apply List.map_congr_left
      intro p _
      show ((select p.2 (commonCols df0 rest)).rows).length = p.2.rows.length
      simp [select]

/-- Witness for **C1** on a concrete two-year dict. -/
theorem concatenate_common_columns_spec_witness :
    ∃ out, concatenate_common_columns exDict = some out ∧
      (∀ c, c ∈ out.cols ↔ ∀ p ∈ exDict, c ∈ p.2.cols) ∧
      out.rows = (exDict.map (fun p => (select p.2 out.cols).rows)).flatten ∧
      out.rows.length = (exDict.map (fun p => p.2.rows.length)).sum :=
  concatenate_common_columns_spec exDict (by decide)

/-- **C3**: after `normalize_column_names`, any remaining column name that
is a key of the synonym table is its own canonical form (so no raw,
non-canonical name survives); each output dataset renames its columns
through the table positionally with rows untouched, and names that are not
keys pass through `applySyn` unchanged. -/
theorem normalize_column_names_spec (d : DFDict) :
    (∀ p ∈ normalize_column_names d, ∀ c ∈ p.2.cols, ∀ v,
        column_mapping.lookup c = some v → v = c) ∧
    List.Forall₂
      (fun p q => q.1 = p.1 ∧ q.2.cols = p.2.cols.map applySyn ∧ q.2.rows = p.2.rows)
      d (normalize_column_names d) ∧
    (∀ c, column_mapping.lookup c = none → applySyn c = c) := by
  refine ⟨?_, ?_, ?_⟩
  · intro p hp c hc v hv
    obtain ⟨q, _, rfl⟩ := List.mem_map.mp hp
    simp only [rename_df] at hc
    obtain ⟨c0, _, rfl⟩ := List.mem_map.mp hc
    have h2 : applySyn (applySyn c0) = v := by
      generalize hq : applySyn c0 = a at hv ⊢
      simp only [applySyn, hv, Option.getD_some]
    have h1 := applySyn_applySyn c0
    rw [h2] at h1
    exact h1
  · induction d with
    | nil => exact List.Forall₂.nil
    | cons p rest ih => exact List.Forall₂.cons ⟨rfl, rfl, rfl⟩ ih
  · intro c h
    simp [applySyn, h]

/-- **C9**: `normalize_column_names` is idempotent (in fact the second
application is the identity on the whole dict, columns and rows alike). -/
theorem normalize_column_names_idem (d : DFDict) :
    normalize_column_names (normalize_column_names d) = normalize_column_names d := by
  unfold normalize_column_names
  rw [List.map_map]
  apply List.map_congr_left
  intro p _
  show (p.1, rename_df (rename_df p.2)) = (p.1, rename_df p.2)
  rw [rename_df_idem]

/-- **C4**: after `add_year_column`, every row of each dataset reads its
dict key under `Year`, and reapplying `add_year_column` changes nothing. -/
theorem add_year_column_spec (d : DFDict) (hwf : ∀ p ∈ d, WF p.2) :
    (∀ p ∈ add_year_column d, ∀ r ∈ p.2.rows,
        getVal p.2.cols r "Year" = Value.int p.1) ∧
    add_year_column (add_year_column d) = add_year_column d := by
  constructor
  · intro p hp r hr
    obtain ⟨q, hq, rfl⟩ := List.mem_map.mp hp
    exact set_column_getVal (hwf q hq) "Year" (Value.int q.1) r hr
  · unfold add_year_column
    rw [List.map_map]
    apply List.map_congr_left
    intro p hp
    show (p.1, set_column (set_column p.2 "Year" (Value.int p.1)) "Year" (Value.int p.1))
        = (p.1, set_column p.2 "Year" (Value.int p.1))
    rw [set_column_idem (hwf p hp)]

/-- Witness for **C4** on a concrete two-year dict. -/
theorem add_year_column_spec_witness :
    (∀ p ∈ add_year_column exDict, ∀ r ∈ p.2.rows,
        getVal p.2.cols r "Year" = Value.int p.1) ∧
    add_year_column (add_year_column exDict) = add_year_column exDict :=
  add_year_column_spec exDict (by decide)

/-! ## map_country_to_continent (C5) -/

/-- A list is pointwise `Forall₂`-related to its own map. -/
theorem forall₂_map_self {α β : Type} {P : α → β → Prop} (g : α → β) :
    ∀ (l : List α), (∀ a ∈ l, P a (g a)) → List.Forall₂ P l (l.map g) := by
  intro l
  induction l with
  | nil => intro _; exact List.Forall₂.nil
  | cons x xs ih =>
    intro h
    exact List.Forall₂.cons (h x (List.mem_cons_self x xs))
      (ih (fun a ha => h a (List.mem_cons_of_mem x ha)))

/-- Zipping a list with its own map and projecting pointwise is a map. -/
theorem zip_map_self {α β γ : Type} (f : α → β) (g : α × β → γ) :
    ∀ (l : List α), (l.zip (l.map f)).map g = l.map (fun a => g (a, f a)) := by
  intro l
  induction l with
  | nil => rfl
  | cons x xs ih => simp only [List.map_cons, List.zip_cons_cons, ih]

/-- Core of `map_country_to_continent`: it succeeds on a dataset with a
`Country` column, and every output row reads, under `Continent`, the
continent looked up for the row's country. -/
theorem map_country_getVal (df : DF) (hwf : WF df) (hC : "Country" ∈ df.cols) :
    ∃ e, map_country_to_continent df = some e ∧
      List.Forall₂
        (fun r r' =>
          getVal e.cols r' "Continent" = continentOf (getVal df.cols r "Country"))
        df.rows e.rows := by
  unfold map_country_to_continent
  rw [if_pos hC]
  refine ⟨_, rfl, ?_⟩
  unfold set_column_list
  by_cases hcont : "Continent" ∈ df.cols
  · rw [if_pos hcont]
    rw [zip_map_self (fun r => continentOf (getVal df.cols r "Country"))
      (fun p => set_row df.cols p.1 "Continent" p.2) df.rows]
    exact forall₂_map_self _ df.rows (fun r hr =>
      getVal_set_row df.cols r (hwf r hr) "Continent" _ hcont)
  · rw [if_neg hcont]
    rw [zip_map_self (fun r => continentOf (getVal df.cols r "Country"))
      (fun p => p.1 ++ [p.2]) df.rows]
    refine forall₂_map_self _ df.rows (fun r hr => ?_)
    rw [getVal_append df.cols r (hwf r hr) ["Continent"] [continentOf (getVal df.cols r "Country")] "Continent",
      if_neg hcont]
    simp [getVal]

/-- **C5**: on every dataset with a `Country` column,
`map_country_to_continent` succeeds, maps every `"Switzerland"` row to
`Continent == "Europe"`, and yields a missing `Continent` value (not an
error) for every row whose country is absent from the lookup table. -/
theorem map_country_to_continent_spec (df : DF) (hC : "Country" ∈ df.cols) (hwf : WF df) :
    ∃ e, map_country_to_continent df = some e ∧
      List.Forall₂
        (fun r r' =>
          (getVal df.cols r "Country" = Value.str "Switzerland" →
            getVal e.cols r' "Continent" = Value.str "Europe") ∧
          (∀ s, getVal df.cols r "Country" = Value.str s →
            country_to_continent.lookup s = none →
            getVal e.cols r' "Continent" = Value.na))
        df.rows e.rows := by
  obtain ⟨e, he, hf⟩ := map_country_getVal df hwf hC
  refine ⟨e, he, hf.imp ?_⟩
  intro r r' hval
  constructor
  · intro hch
    rw [hval, hch]
    decide
  · intro s hs hnone
    rw [hval, hs]
    simp [continentOf, hnone]

/-- Witness for **C5** on a concrete dataset containing a Swiss row and a
row whose country is absent from the table. -/
theorem map_country_to_continent_spec_witness :
    ∃ e, map_country_to_continent exDF = some e ∧
      List.Forall₂
        (fun r r' =>
          (getVal exDF.cols r "Country" = Value.str "Switzerland" →
            getVal e.cols r' "Continent" = Value.str "Europe") ∧
          (∀ s, getVal exDF.cols r "Country" = Value.str s →
            country_to_continent.lookup s = none →
            getVal e.cols r' "Continent" = Value.na))
        exDF.rows e.rows :=
  map_country_to_continent_spec exDF (by decide) (by decide)

/-! ## load_datasets (C2) -/

/-- Python dict assignment with a fresh key appends the entry. -/
theorem dictInsert_not_mem {β : Type} (k : Int) (v : β) :
    ∀ (l : List (Int × β)), k ∉ l.map Prod.fst → dictInsert k v l = l ++ [(k, v)] := by
  intro l
  induction l with
  | nil => intro _; rfl
  | cons p rest ih =>
    intro hk
    rcases p with ⟨k', v'⟩
    have h1 : ¬ k' = k := by
      intro hh
      exact hk (by simp [hh])
    show (if k' = k then (k, v) :: rest else (k', v') :: dictInsert k v rest) = _
    rw [if_neg h1, ih (fun hh => hk (by simp [hh]))]
    rfl

/-- A `filterMap` whose function hits on every element preserves length. -/
theorem length_filterMap_of_isSome {α β : Type} (g : α → Option β) :
    ∀ (l : List α), (∀ a ∈ l, (g a).isSome) → (l.filterMap g).length = l.length := by
  intro l
  induction l with
  | nil => intro _; rfl
  | cons x xs ih =>
    intro hall
    obtain ⟨b, hb⟩ := Option.isSome_iff_exists.mp (hall x (List.mem_cons_self _ _))
    rw [List.filterMap_cons, hb]
    simp only [List.length_cons]
    rw [ih (fun a ha => hall a (List.mem_cons_of_mem _ ha))]

/-- Keys of the entries built by `load_datasets` are the parsed years. -/
theorem map_fst_filterMap_parse (env : String → DF) :
    ∀ (l : List String),
      (l.filterMap (fun f => (parseYear f).map (fun y => (y, env f)))).map Prod.fst
        = l.filterMap parseYear := by
  intro l
  induction l with
  | nil => rfl
  | cons x xs ih =>
    cases hx : parseYear x <;>
      simp [List.filterMap_cons, hx, ih]

/-- The `load_datasets` fold, from an arbitrary accumulated dict: with all
recognized filenames parsable and all parsed years fresh and distinct, it
appends one entry per recognized file, in listing order. -/
theorem load_datasets_fold (env : String → DF) :
    ∀ (listing : List String) (acc : DFDict),
      (∀ f ∈ listing, endsWithStr f ".csv" = true → (parseYear f).isSome) →
      (acc.map Prod.fst
        ++ (listing.filter (fun f => endsWithStr f ".csv")).filterMap parseYear).Nodup →
      listing.foldl
        (fun acc2 filename =>
          match acc2 with
          | none => none
          | some ds =>
            if endsWithStr filename ".csv" then
              match parseYear filename with
              | none => none
              | some y => some (dictInsert y (env filename) ds)
            else some ds)
        (some acc)
        = some (acc ++ (listing.filter (fun f => endsWithStr f ".csv")).filterMap
            (fun f => (parseYear f).map (fun y => (y, env f)))) := by
  intro listing
  induction listing with
  | nil =>
    intro acc _ _
    simp
  | cons f rest ih =>
    intro acc hp hnd
    by_cases hcsv : endsWithStr f ".csv"
    · obtain ⟨y, hy⟩ := Option.isSome_iff_exists.mp
        (hp f (List.mem_cons_self _ _) hcsv)
      rw [List.foldl_cons]
      rw [show (match (some acc : Option DFDict) with
            | none => none
            | some ds =>
              if endsWithStr f ".csv" then
                match parseYear f with
                | none => none
                | some y => some (dictInsert y (env f) ds)
              else some ds) = some (dictInsert y (env f) acc) by simp [hcsv, hy]]
      have hfil : (f :: rest).filter (fun g => endsWithStr g ".csv")
          = f :: rest.filter (fun g => endsWithStr g ".csv") := by
        rw [List.filter_cons, if_pos hcsv]
      rw [hfil] at hnd
      rw [List.filterMap_cons, hy] at hnd
      have hyfresh : y ∉ acc.map Prod.fst := by
        rcases (List.nodup_append.mp hnd) with ⟨_, _, hdisj⟩
        intro hmem
        exact hdisj hmem (List.mem_cons_self _ _)
      rw [dictInsert_not_mem y (env f) acc hyfresh]
      have hnd' : ((acc ++ [(y, env f)]).map Prod.fst
          ++ (rest.filter (fun g => endsWithStr g ".csv")).filterMap parseYear).Nodup := by
        rw [List.map_append]
        rw [List.append_assoc]
        simpa using hnd
      rw [ih (acc ++ [(y, env f)]) (fun g hg hc => hp g (List.mem_cons_of_mem _ hg) hc) hnd']
      rw [hfil, List.filterMap_cons, hy]
      simp
    · rw [List.foldl_cons]
      rw [show (match (some acc : Option DFDict) with
            | none => none
            | some ds =>
              if endsWithStr f ".csv" then
                match parseYear f with
                | none => none
                | some y => some (dictInsert y (env f) ds)
              else some ds) = some acc by simp [hcsv]]
      have hfil : (f :: rest).filter (fun g => endsWithStr g ".csv")
          = rest.filter (fun g => endsWithStr g ".csv") := by
        rw [List.filter_cons, if_neg hcsv]
      rw [hfil] at hnd
      rw [ih acc (fun g hg hc => hp g (List.mem_cons_of_mem _ hg) hc) hnd, hfil]

/-- **C2 (counterexample)**: a directory with two recognized files whose
parsed years collide produces a one-entry mapping, not a two-entry one. -/
theorem load_datasets_cex :
    (load_datasets envEmpty exListingDup).map List.length = some 1 ∧
    (exListingDup.filter (fun f => endsWithStr f ".csv")).length = 2 := by decide

/-- **C2 (amended)**: for every directory listing whose recognized
(`.csv`) filenames all parse to a year and whose parsed years are pairwise
distinct, `load_datasets` succeeds with exactly one entry per recognized
file, keyed (in listing order) by the parsed years. -/
theorem load_datasets_spec (env : String → DF) (listing : List String)
    (hp : ∀ f ∈ listing, endsWithStr f ".csv" = true → (parseYear f).isSome)
    (hnd : ((listing.filter (fun f => endsWithStr f ".csv")).filterMap parseYear).Nodup) :
    ∃ d, load_datasets env listing = some d ∧
      d.length = (listing.filter (fun f => endsWithStr f ".csv")).length ∧
      d.map Prod.fst = (listing.filter (fun f => endsWithStr f ".csv")).filterMap parseYear := by
  have h := load_datasets_fold env listing [] hp (by simpa using hnd)
  unfold load_datasets
  rw [h]
  simp only [List.nil_append]
  refine ⟨_, rfl, ?_, map_fst_filterMap_parse env _⟩
  apply length_filterMap_of_isSome
  intro f hf
  have hsome := hp f (List.mem_filter.mp hf).1 (by simpa using (List.mem_filter.mp hf).2)
  cases hpy : parseYear f
  · rw [hpy] at hsome
    simp at hsome
  · simp [hpy]

/-- Witness for the amended **C2** on a concrete listing with two distinct
years and one unrecognized file. -/
theorem load_datasets_spec_witness :
    ∃ d, load_datasets envEmpty exListingOk = some d ∧
      d.length = (exListingOk.filter (fun f => endsWithStr f ".csv")).length ∧
      d.map Prod.fst
        = (exListingOk.filter (fun f => endsWithStr f ".csv")).filterMap parseYear :=
  load_datasets_spec envEmpty exListingOk (by decide) (by decide)

/-! ## get_engine (C7) -/

/-- **C7**: whenever a connection or database-creation error
(`SQLAlchemyError`) is raised during `get_engine`, the error is caught,
an error-level line is logged, and the caller receives a missing (`None`)
handle instead of an exception. -/
theorem get_engine_spec (w : DBWorld) (h : raisesDuring w) :
    (get_engine w).1 = none ∧ ∃ m, LogEntry.error m ∈ (get_engine w).2 := by
  unfold raisesDuring raisesDuringB at h
  unfold get_engine
  rcases hde : w.database_exists with e | b
  · exact ⟨rfl, e, by simp⟩
  · rw [hde] at h
    cases b
    · rcases hcd : w.create_database with e2 | u
      · exact ⟨rfl, e2, by simp⟩
      · rw [hcd] at h
        simp only [isErr, Bool.not_false, Bool.true_and, Bool.false_or,
          Bool.or_true, Bool.true_or, Bool.and_false, Bool.false_and] at h
        rcases hce : w.create_engine with e3 | eng
        · exact ⟨rfl, e3, by simp⟩
        · rw [hce] at h
          simp [isErr] at h
    · rcases hce : w.create_engine with e3 | eng
      · exact ⟨rfl, e3, by simp⟩
      · rw [hce] at h
        simp [isErr] at h

/-- Witness for **C7**: a world where the existence check raises. -/
theorem get_engine_spec_witness :
    (get_engine exWorldErr).1 = none ∧ ∃ m, LogEntry.error m ∈ (get_engine exWorldErr).2 :=
  get_engine_spec exWorldErr (by unfold raisesDuring; decide)

/-! ## normalize_column_names on the heap (C8) -/

/-- Appending fresh objects to the heap does not change existing reads. -/
theorem Heap.read_append (h : Heap) (xs : List DF) {r : Nat}
    (hr : r < h.dfs.length) : Heap.read ⟨h.dfs ++ xs⟩ r = h.read r := by
  unfold Heap.read
  exact List.getD_append _ _ _ _ hr

/-- Strengthened `Forall₂` monotonicity, with membership available. -/
theorem forall₂_imp_mem {α β : Type} {P Q : α → β → Prop} :
    ∀ {l1 : List α} {l2 : List β}, List.Forall₂ P l1 l2 →
      (∀ a ∈ l1, ∀ b, P a b → Q a b) → List.Forall₂ Q l1 l2 := by
  intro l1 l2 hf
  induction hf with
  | nil => intro _; exact List.Forall₂.nil
  | @cons a b as bs hab _ ih =>
    intro himp
    exact List.Forall₂.cons (himp a (List.mem_cons_self _ _) b hab)
      (ih (fun x hx y hy => himp x (List.mem_cons_of_mem _ hx) y hy))

/-- The `normalize_column_names` loop from an arbitrary accumulated dict:
it allocates one renamed copy per entry at the end of the store, leaving
every existing object untouched, and appends the corresponding
year-to-fresh-reference entries in iteration order. -/
theorem normalize_st_fold :
    ∀ (d : RefDict) (h : Heap) (l : RefDict),
      (∀ p ∈ d, p.2 < h.dfs.length) →
      (∀ p ∈ d, p.1 ∉ l.map Prod.fst) →
      (d.map Prod.fst).Nodup →
      ∃ l2,
        d.foldl
          (fun acc p =>
            (⟨acc.1.dfs ++ [rename_df (acc.1.read p.2)]⟩,
             dictInsert p.1 acc.1.dfs.length acc.2))
          (h, l)
          = (⟨h.dfs ++ d.map (fun p => rename_df (h.read p.2))⟩, l ++ l2) ∧
        List.Forall₂
          (fun p q => q.1 = p.1 ∧ h.dfs.length ≤ q.2 ∧
            Heap.read ⟨h.dfs ++ d.map (fun p2 => rename_df (h.read p2.2))⟩ q.2
              = rename_df (h.read p.2))
          d l2 := by
  intro d
  induction d with
  | nil =>
    intro h l _ _ _
    exact ⟨[], by simp, List.Forall₂.nil⟩
  | cons p rest ih =>
    intro h l hv hk hnd
    rw [List.foldl_cons]
    dsimp only
    have hdict : dictInsert p.1 h.dfs.length l = l ++ [(p.1, h.dfs.length)] := by
      rw [dictInsert_not_mem _ _ l (hk p (List.mem_cons_self _ _))]
    rw [hdict]
    rw [List.map_cons] at hnd
    have hv1 : ∀ q ∈ rest,
        q.2 < (⟨h.dfs ++ [rename_df (h.read p.2)]⟩ : Heap).dfs.length := by
      intro q hq
      exact lt_of_lt_of_le (hv q (List.mem_cons_of_mem _ hq)) (by simp)
    have hk1 : ∀ q ∈ rest, q.1 ∉ (l ++ [(p.1, h.dfs.length)]).map Prod.fst := by
      intro q hq hmem
      rw [List.map_append] at hmem
      rcases List.mem_append.mp hmem with hmem | hmem
      · exact hk q (List.mem_cons_of_mem _ hq) hmem
      · have hq1 : q.1 = p.1 := by simpa using hmem
        have : p.1 ∈ rest.map Prod.fst :=
          hq1 ▸ List.mem_map_of_mem Prod.fst hq
        exact (List.nodup_cons.mp hnd).1 this
    obtain ⟨l2', heq', hf'⟩ :=
      ih ⟨h.dfs ++ [rename_df (h.read p.2)]⟩ (l ++ [(p.1, h.dfs.length)])
        hv1 hk1 (List.nodup_cons.mp hnd).2
    have hreads : ∀ q ∈ rest,
        Heap.read ⟨h.dfs ++ [rename_df (h.read p.2)]⟩ q.2 = h.read q.2 := by
      intro q hq
      exact Heap.read_append h _ (hv q (List.mem_cons_of_mem _ hq))
    have hmapeq : rest.map
          (fun q => rename_df (Heap.read ⟨h.dfs ++ [rename_df (h.read p.2)]⟩ q.2))
        = rest.map (fun q => rename_df (h.read q.2)) :=
      List.map_congr_left (fun q hq => by rw [hreads q hq])
    have hheap : (⟨(⟨h.dfs ++ [rename_df (h.read p.2)]⟩ : Heap).dfs
          ++ rest.map
            (fun q => rename_df (Heap.read ⟨h.dfs ++ [rename_df (h.read p.2)]⟩ q.2))⟩ : Heap)
        = ⟨h.dfs ++ (p :: rest).map (fun q => rename_df (h.read q.2))⟩ := by
      rw [hmapeq]
      show (⟨(h.dfs ++ [rename_df (h.read p.2)])
          ++ rest.map (fun q => rename_df (h.read q.2))⟩ : Heap) = _
      rw [List.append_assoc]
      rfl
    refine ⟨(p.1, h.dfs.length) :: l2', ?_, ?_⟩
    · rw [heq', hheap, List.append_assoc]
      rfl
    · refine List.Forall₂.cons ⟨rfl, le_refl _, ?_⟩ ?_
      · show Heap.read ⟨h.dfs ++ (p :: rest).map (fun q => rename_df (h.read q.2))⟩
            h.dfs.length = rename_df (h.read p.2)
        unfold Heap.read
        rw [List.getD_append_right _ _ _ _ (le_refl _)]
        simp
      · refine forall₂_imp_mem hf' ?_
        intro q hq b hb
        obtain ⟨hb1, hb2, hb3⟩ := hb
        refine ⟨hb1, ?_, ?_⟩
        · exact le_trans (by simp) hb2
        · rw [hheap] at hb3
          rw [hreads q hq] at hb3
          exact hb3

/-- **C8**: `normalize_column_names` does not mutate its input: every
dataset reachable from the input dict reads the same after the call, and
the returned dict pairs the same years, in order, with freshly allocated
references (at or beyond the old heap top, hence distinct from every input
reference) holding renamed copies of the corresponding input datasets. -/
theorem normalize_column_names_st_spec (h : Heap) (d : RefDict)
    (hv : ∀ p ∈ d, p.2 < h.dfs.length) (hnd : (d.map Prod.fst).Nodup) :
    (∀ p ∈ d, (normalize_column_names_st h d).1.read p.2 = h.read p.2) ∧
    List.Forall₂
      (fun p q => q.1 = p.1 ∧ h.dfs.length ≤ q.2 ∧
        (normalize_column_names_st h d).1.read q.2 = rename_df (h.read p.2))
      d (normalize_column_names_st h d).2 := by
  obtain ⟨l2, heq, hf⟩ := normalize_st_fold d h [] hv (by simp) hnd
  unfold normalize_column_names_st
  rw [heq]
  constructor
  · intro p hp
    exact Heap.read_append h _ (hv p hp)
  · simpa using hf

/-- Witness for **C8** on a one-entry heap and dict. -/
theorem normalize_column_names_st_spec_witness :
    (∀ p ∈ [((2015 : Int), (0 : Nat))],
        (normalize_column_names_st exHeap [(2015, 0)]).1.read p.2 = exHeap.read p.2) ∧
    List.Forall₂
      (fun p q => q.1 = p.1 ∧ exHeap.dfs.length ≤ q.2 ∧
        (normalize_column_names_st exHeap [(2015, 0)]).1.read q.2
          = rename_df (exHeap.read p.2))
      [((2015 : Int), (0 : Nat))] (normalize_column_names_st exHeap [(2015, 0)]).2 :=
  normalize_column_names_st_spec exHeap [(2015, 0)] (by decide) (by decide)

/-! ## map_country_to_continent on the heap (C10) -/

/-- Reading back the reference just written. -/
theorem Heap.read_set_self (h : Heap) (r : Nat) (df : DF) (hr : r < h.dfs.length) :
    Heap.read ⟨h.dfs.set r df⟩ r = df := by
  unfold Heap.read
  rw [List.getD_eq_getElem?_getD, List.getElem?_set_self hr]
  rfl

/-- Writing one reference leaves every other reference unchanged. -/
theorem Heap.read_set_ne (h : Heap) (r q : Nat) (df : DF) (hq : q ≠ r) :
    Heap.read ⟨h.dfs.set r df⟩ q = h.read q := by
  unfold Heap.read
  rw [List.getD_eq_getElem?_getD, List.getElem?_set_ne (fun hh => hq hh.symm),
    ← List.getD_eq_getElem?_getD]

/-- A dataframe with a `Country` column lives at a valid reference. -/
theorem valid_of_country (h : Heap) (r : Nat) (hC : "Country" ∈ (h.read r).cols) :
    r < h.dfs.length := by
  by_contra hge
  push_neg at hge
  have hread : h.read r = { cols := [], rows := [] } := by
    unfold Heap.read
    exact List.getD_eq_default _ _ hge
  rw [hread] at hC
  simp at hC

/-- **C10 (counterexample)**: on a dataset that already has a `Continent`
column, `map_country_to_continent_st` overwrites that pre-existing
column's values (here `"X"` becomes `"Europe"`) while adding no column, so
the names and values of every pre-existing column are not all unchanged. -/
theorem map_country_to_continent_st_cex :
    (map_country_to_continent_st exHeapCont 0).map
        (fun pr => getVal (pr.1.read 0).cols ((pr.1.read 0).rows.getD 0 []) "Continent")
      = some (Value.str "Europe") ∧
    getVal (exHeapCont.read 0).cols ((exHeapCont.read 0).rows.getD 0 []) "Continent"
      = Value.str "X" ∧
    (map_country_to_continent_st exHeapCont 0).map (fun pr => (pr.1.read 0).cols)
      = some (exHeapCont.read 0).cols := by decide

/-- **C10 (amended)**: on every dataset with a `Country` column and no
pre-existing `Continent` column, `map_country_to_continent_st` mutates the
dataset in place and returns the same reference, appending exactly the
`Continent` column: the row count, the pre-existing column names and all
their values are unchanged, and every other heap object is untouched. -/
theorem map_country_to_continent_st_spec (h : Heap) (r : Nat)
    (hC : "Country" ∈ (h.read r).cols) (hNC : "Continent" ∉ (h.read r).cols)
    (hwf : WF (h.read r)) :
    ∃ h2, map_country_to_continent_st h r = some (h2, r) ∧
      (h2.read r).cols = (h.read r).cols ++ ["Continent"] ∧
      (h2.read r).rows.length = (h.read r).rows.length ∧
      List.Forall₂
        (fun row row2 => ∀ c ∈ (h.read r).cols,
          getVal (h2.read r).cols row2 c = getVal (h.read r).cols row c)
        (h.read r).rows (h2.read r).rows ∧
      (∀ q, q ≠ r → h2.read q = h.read q) := by
  have hr : r < h.dfs.length := valid_of_country h r hC
  unfold map_country_to_continent_st map_country_to_continent
  rw [if_pos hC]
  refine ⟨_, rfl, ?_, ?_, ?_, ?_⟩
  · rw [Heap.read_set_self h r _ hr]
    unfold set_column_list
    rw [if_neg hNC]
  · rw [Heap.read_set_self h r _ hr]
    unfold set_column_list
    rw [if_neg hNC]
    rw [zip_map_self]
    simp
  · rw [Heap.read_set_self h r _ hr]
    unfold set_column_list
    rw [if_neg hNC]
    rw [zip_map_self]
    refine forall₂_map_self _ (h.read r).rows ?_
    intro row hrow c hc
    rw [getVal_append (h.read r).cols row (hwf row hrow)
      ["Continent"] [continentOf (getVal (h.read r).cols row "Country")] c,
      if_pos hc]
  · intro q hq
    exact Heap.read_set_ne h r q _ hq

/-- Witness for the amended **C10** on a concrete heap. -/
theorem map_country_to_continent_st_spec_witness :
    ∃ h2, map_country_to_continent_st exHeap 0 = some (h2, 0) ∧
      (h2.read 0).cols = (exHeap.read 0).cols ++ ["Continent"] ∧
      (h2.read 0).rows.length = (exHeap.read 0).rows.length ∧
      List.Forall₂
        (fun row row2 => ∀ c ∈ (exHeap.read 0).cols,
          getVal (h2.read 0).cols row2 c = getVal (exHeap.read 0).cols row c)
        (exHeap.read 0).rows (h2.read 0).rows ∧
      (∀ q, q ≠ 0 → h2.read q = exHeap.read q) :=
  map_country_to_continent_st_spec exHeap 0 (by decide) (by decide) (by decide)
